import Mathlib

/-!
Verification of the in-memory many-to-many model (Author / Magazine / Article)
from `lib/classes/many_to_many.py`.

Modelling choices (shallow embedding):
* Python object identity is modelled by the index of the object in the
  process-wide list that holds every instance of its class: `State.authors`
  for Author objects, `State.mags` for `Magazine._all`, and `State.arts`
  for `Article.all`.  Objects are never removed, so indices are stable
  identities, and `is` / default `==` on these classes is index equality.
* Dynamically typed Python values passed to constructors and setters are
  modelled by the `Value` type; `isinstance` checks become pattern matches.
* A constructor (`__init__`) is a function `State → ... → Option String × State`:
  the first component is `some msg` when the Python code raises `Exception(msg)`
  (in which case the second component is the unchanged state), and `none` on
  success (the second component then has the new object appended to its
  registry), mirroring the source order: validation first, registration last.
* Property setters are pure functions on the object record; a silent ignore
  in the source is the identity here.
* Query methods are pure functions of the state; strings compare by `==`
  (Python string equality) and objects by index (Python identity).
-/

namespace ManyToMany

/-- A dynamically typed Python value as it can be handed to this API:
a string, an int, `None`, or a reference to an existing Author, Magazine
or Article object (identified by its index in the corresponding list). -/
inductive Value where
  | str (t : String)
  | int (n : Int)
  | noneV
  | authorRef (i : Nat)
  | magRef (i : Nat)
  | artRef (i : Nat)
deriving DecidableEq

/-- The state of an `Author` object: its `_name` attribute. -/
structure Author where
  name : String
deriving DecidableEq

instance : Inhabited Author := ⟨⟨""⟩⟩

/-- The state of a `Magazine` object: its `_name` and `_category` attributes. -/
structure Magazine where
  name : String
  category : String
deriving DecidableEq

instance : Inhabited Magazine := ⟨⟨"", ""⟩⟩

/-- The state of an `Article` object: its `_title` attribute and the
identities (indices) of its `_author` and `_magazine` references. -/
structure Article where
  title : String
  author : Nat
  magazine : Nat
deriving DecidableEq

instance : Inhabited Article := ⟨⟨"", 0, 0⟩⟩

/-- The whole process state: every Author object ever constructed,
`Magazine._all`, and `Article.all` (each in construction order). -/
structure State where
  authors : List Author
  mags : List Magazine
  arts : List Article
deriving DecidableEq

/-- The initial process state: no objects constructed yet. -/
def State.empty : State := ⟨[], [], []⟩

/-- `Author.__init__(self, name)`: raises if `name` is not a string or is
empty; otherwise stores the name and (in our model) records the new object. -/
def Author.init (s : State) (nv : Value) : Option String × State :=
  match nv with
  | .str n =>
    if n.length = 0 then (some "name must be longer than 0 characters", s)
    else (none, { s with authors := s.authors ++ [{ name := n }] })
  | _ => (some "name must be a string", s)

/-- The `Author.name` setter: `return` — every reassignment is ignored. -/
def Author.setName (a : Author) (_v : Value) : Author := a

/-- `Magazine.__init__(self, name, category)`: validates `name` (string of
length 2–16) then `category` (non-empty string), then appends the new
magazine to `Magazine._all`. -/
def Magazine.init (s : State) (nv cv : Value) : Option String × State :=
  match nv with
  | .str n =>
    if ¬ (2 ≤ n.length ∧ n.length ≤ 16) then
      (some "name must be between 2 and 16 characters", s)
    else
      match cv with
      | .str c =>
        if c.length = 0 then (some "category must be longer than 0 characters", s)
        else (none, { s with mags := s.mags ++ [{ name := n, category := c }] })
      | _ => (some "category must be a string", s)
  | _ => (some "name must be a string", s)

/-- The `Magazine.name` setter: applies the value only when it is a string
of length 2–16, else silently ignores the assignment. -/
def Magazine.setName (m : Magazine) (v : Value) : Magazine :=
  match v with
  | .str t => if 2 ≤ t.length ∧ t.length ≤ 16 then { m with name := t } else m
  | _ => m

/-- The `Magazine.category` setter: applies the value only when it is a
non-empty string, else silently ignores the assignment. -/
def Magazine.setCategory (m : Magazine) (v : Value) : Magazine :=
  match v with
  | .str t => if 0 < t.length then { m with category := t } else m
  | _ => m

/-- `Article.__init__(self, author, magazine, title)`: validates the two
references (`isinstance` checks) and the title (string of length 5–50),
then stores the attributes and appends the article to `Article.all`. -/
def Article.init (s : State) (av mv tv : Value) : Option String × State :=
  match av with
  | .authorRef ai =>
    match mv with
    | .magRef mi =>
      match tv with
      | .str t =>
        if ¬ (5 ≤ t.length ∧ t.length ≤ 50) then
          (some "title must be between 5 and 50 characters", s)
        else
          (none, { s with arts := s.arts ++ [{ title := t, author := ai, magazine := mi }] })
      | _ => (some "title must be a string", s)
    | _ => (some "magazine must be a Magazine instance", s)
  | _ => (some "author must be an Author instance", s)

/-- The `Article.title` setter: `return` — every reassignment is ignored. -/
def Article.setTitle (a : Article) (_v : Value) : Article := a

/-- The `Article.author` setter: applies only Author instances, else ignores. -/
def Article.setAuthor (a : Article) (v : Value) : Article :=
  match v with
  | .authorRef i => { a with author := i }
  | _ => a

/-- The `Article.magazine` setter: applies only Magazine instances, else ignores. -/
def Article.setMagazine (a : Article) (v : Value) : Article :=
  match v with
  | .magRef i => { a with magazine := i }
  | _ => a

/-- `Author.articles(self)`: `[a for a in Article.all if a.author is self]`. -/
def Author.articles (s : State) (aid : Nat) : List Article :=
  s.arts.filter (fun a => a.author == aid)

/-- The `if x not in acc: acc.append(x)` accumulation step used by the
first-seen deduplication loops in the source. -/
def addUnique {α : Type} [BEq α] (acc : List α) (x : α) : List α :=
  if acc.contains x then acc else acc ++ [x]

/-- `Author.magazines(self)`: the first-seen list of magazines of this
author's articles. -/
def Author.magazines (s : State) (aid : Nat) : List Nat :=
  (Author.articles s aid).foldl (fun mags a => addUnique mags a.magazine) []

/-- `Author.topic_areas(self)`: `None` if `magazines()` is empty, otherwise
the first-seen list of those magazines' categories. -/
def Author.topic_areas (s : State) (aid : Nat) : Option (List String) :=
  let mags := Author.magazines s aid
  if mags.isEmpty then none
  else some (mags.foldl (fun cats m => addUnique cats (s.mags.getD m default).category) [])

/-- `Magazine.articles(self)`: `[a for a in Article.all if a.magazine is self]`. -/
def Magazine.articles (s : State) (mid : Nat) : List Article :=
  s.arts.filter (fun a => a.magazine == mid)

/-- `Magazine.contributors(self)`: the first-seen list of authors of this
magazine's articles. -/
def Magazine.contributors (s : State) (mid : Nat) : List Nat :=
  (Magazine.articles s mid).foldl (fun aus a => addUnique aus a.author) []

/-- `Magazine.article_titles(self)`: `None` if no articles, else their titles. -/
def Magazine.article_titles (s : State) (mid : Nat) : Option (List String) :=
  let arts := Magazine.articles s mid
  if arts.isEmpty then none else some (arts.map (fun a => a.title))

/-- `Magazine.contributing_authors(self)`: `None` if no articles; otherwise
the authors (keys of the counting dict, i.e. in first-seen order) with more
than 2 articles here, or `None` if none qualifies. -/
def Magazine.contributing_authors (s : State) (mid : Nat) : Option (List Nat) :=
  let arts := Magazine.articles s mid
  if arts.isEmpty then none
  else
    let keys := (arts.map (fun a => a.author)).foldl addUnique []
    let result := keys.filter (fun aid => arts.countP (fun a => a.author == aid) > 2)
    if result.isEmpty then none else some result

/-- `len([a for a in Article.all if a.magazine is mag])` inside `top_publisher`. -/
def Magazine.articleCount (s : State) (mid : Nat) : Nat :=
  (s.arts.filter (fun a => a.magazine == mid)).length

/-- The `for mag in cls._all` loop of `Magazine.top_publisher`, carrying the
`best` / `best_count` accumulators. -/
def topLoop (s : State) : List Nat → Option Nat → Nat → Option Nat × Nat
  | [], best, best_count => (best, best_count)
  | mag :: rest, best, best_count =>
    if Magazine.articleCount s mag > best_count then
      topLoop s rest (some mag) (Magazine.articleCount s mag)
    else
      topLoop s rest best best_count

/-- `Magazine.top_publisher(cls)`: `None` if `Article.all` is empty, else the
result of the strict-`>` scan over `Magazine._all` in registry order. -/
def Magazine.top_publisher (s : State) : Option Nat :=
  if s.arts.isEmpty then none
  else (topLoop s (List.range s.mags.length) none 0).1

/-- `Author.add_article(self, magazine, title)`: constructs a new Article
with this author, propagating Article's construction failure. -/
def Author.add_article (s : State) (aid : Nat) (mv tv : Value) : Option String × State :=
  Article.init s (.authorRef aid) mv tv

/-- A mutation the embedding code can perform on the process state:
constructing an object or assigning to a settable property. -/
inductive Op where
  | newAuthor (nv : Value)
  | newMagazine (nv cv : Value)
  | newArticle (av mv tv : Value)
  | setAuthorName (i : Nat) (v : Value)
  | setMagazineName (i : Nat) (v : Value)
  | setMagazineCategory (i : Nat) (v : Value)
  | setArticleTitle (i : Nat) (v : Value)
  | setArticleAuthor (i : Nat) (v : Value)
  | setArticleMagazine (i : Nat) (v : Value)

/-- A `Value` is meaningful in state `s` when any object reference in it
denotes an object that actually exists (Python code can only pass around
references to real objects). -/
def valueWF (s : State) : Value → Bool
  | .authorRef i => i < s.authors.length
  | .magRef i => i < s.mags.length
  | .artRef i => i < s.arts.length
  | _ => true

/-- An operation is well formed in state `s` when every value it passes is
well formed and every object it targets exists. -/
def opWF (s : State) : Op → Bool
  | .newAuthor nv => valueWF s nv
  | .newMagazine nv cv => valueWF s nv && valueWF s cv
  | .newArticle av mv tv => valueWF s av && valueWF s mv && valueWF s tv
  | .setAuthorName i v => decide (i < s.authors.length) && valueWF s v
  | .setMagazineName i v => decide (i < s.mags.length) && valueWF s v
  | .setMagazineCategory i v => decide (i < s.mags.length) && valueWF s v
  | .setArticleTitle i v => decide (i < s.arts.length) && valueWF s v
  | .setArticleAuthor i v => decide (i < s.arts.length) && valueWF s v
  | .setArticleMagazine i v => decide (i < s.arts.length) && valueWF s v

/-- Execute one operation (a raised construction error leaves the state as
the constructor left it, i.e. unchanged). -/
def step (s : State) : Op → State
  | .newAuthor nv => (Author.init s nv).2
  | .newMagazine nv cv => (Magazine.init s nv cv).2
  | .newArticle av mv tv => (Article.init s av mv tv).2
  | .setAuthorName i v =>
    { s with authors := s.authors.set i (Author.setName (s.authors.getD i default) v) }
  | .setMagazineName i v =>
    { s with mags := s.mags.set i (Magazine.setName (s.mags.getD i default) v) }
  | .setMagazineCategory i v =>
    { s with mags := s.mags.set i (Magazine.setCategory (s.mags.getD i default) v) }
  | .setArticleTitle i v =>
    { s with arts := s.arts.set i (Article.setTitle (s.arts.getD i default) v) }
  | .setArticleAuthor i v =>
    { s with arts := s.arts.set i (Article.setAuthor (s.arts.getD i default) v) }
  | .setArticleMagazine i v =>
    { s with arts := s.arts.set i (Article.setMagazine (s.arts.getD i default) v) }

/-- States reachable from the empty process by well-formed operations. -/
inductive Reachable : State → Prop where
  | empty : Reachable State.empty
  | next {s : State} {op : Op} : Reachable s → opWF s op = true → Reachable (step s op)

/-- Referential integrity: every article's author and magazine references
denote existing objects. -/
def StateWF (s : State) : Prop :=
  ∀ a ∈ s.arts, a.author < s.authors.length ∧ a.magazine < s.mags.length

instance (s : State) : Decidable (StateWF s) := by
  unfold StateWF; infer_instance

/-- The queries of the API, tagged by target object. -/
inductive QueryOp where
  | authorArticles (aid : Nat)
  | authorMagazines (aid : Nat)
  | authorTopicAreas (aid : Nat)
  | magazineArticles (mid : Nat)
  | magazineContributors (mid : Nat)
  | magazineArticleTitles (mid : Nat)
  | magazineContributingAuthors (mid : Nat)
  | topPublisher

/-- The possible results of a query. -/
inductive QueryResult where
  | articleList (l : List Article)
  | idList (l : List Nat)
  | optIdList (o : Option (List Nat))
  | optStrList (o : Option (List String))
  | optId (o : Option Nat)
deriving DecidableEq

/-- Run a query against the process state, returning its result together
with the state the process is left in. -/
def runQuery (s : State) : QueryOp → QueryResult × State
  | .authorArticles aid => (.articleList (Author.articles s aid), s)
  | .authorMagazines aid => (.idList (Author.magazines s aid), s)
  | .authorTopicAreas aid => (.optStrList (Author.topic_areas s aid), s)
  | .magazineArticles mid => (.articleList (Magazine.articles s mid), s)
  | .magazineContributors mid => (.idList (Magazine.contributors s mid), s)
  | .magazineArticleTitles mid => (.optStrList (Magazine.article_titles s mid), s)
  | .magazineContributingAuthors mid => (.optIdList (Magazine.contributing_authors s mid), s)
  | .topPublisher => (.optId (Magazine.top_publisher s), s)

/-! ## Helper lemmas -/

theorem mag_init_cases (s : State) (nv cv : Value) :
    (Magazine.init s nv cv).1 = none ∨ (Magazine.init s nv cv).2 = s := by
  cases nv with
  | str n =>
    by_cases h1 : 2 ≤ n.length ∧ n.length ≤ 16
    · cases cv with
      | str c =>
        by_cases h2 : c.length = 0
        · right; simp [Magazine.init, h1, h2]
        · left; simp [Magazine.init, h1, h2]
      | int m => right; simp [Magazine.init, h1]
      | noneV => right; simp [Magazine.init, h1]
      | authorRef i => right; simp [Magazine.init, h1]
      | magRef i => right; simp [Magazine.init, h1]
      | artRef i => right; simp [Magazine.init, h1]
    · right; cases cv <;> simp [Magazine.init, h1]
  | int m => right; rfl
  | noneV => right; rfl
  | authorRef i => right; rfl
  | magRef i => right; rfl
  | artRef i => right; rfl

theorem article_init_cases (s : State) (av mv tv : Value) :
    (Article.init s av mv tv).1 = none ∨ (Article.init s av mv tv).2 = s := by
  cases av with
  | authorRef ai =>
    cases mv with
    | magRef mi =>
      cases tv with
      | str t =>
        by_cases h1 : 5 ≤ t.length ∧ t.length ≤ 50
        · left; simp [Article.init, h1]
        · right; simp [Article.init, h1]
      | int m => right; rfl
      | noneV => right; rfl
      | authorRef i => right; rfl
      | magRef i => right; rfl
      | artRef i => right; rfl
    | int m => right; rfl
    | noneV => right; rfl
    | str t => right; rfl
    | authorRef i => right; rfl
    | artRef i => right; rfl
  | int m => right; rfl
  | noneV => right; rfl
  | str t => right; rfl
  | magRef i => right; rfl
  | artRef i => right; rfl

theorem author_init_cases (s : State) (nv : Value) :
    (Author.init s nv).1 = none ∨ (Author.init s nv).2 = s := by
  cases nv with
  | str n =>
    by_cases h : n.length = 0
    · right; simp [Author.init, h]
    · left; simp [Author.init, h]
  | int m => right; rfl
  | noneV => right; rfl
  | authorRef i => right; rfl
  | magRef i => right; rfl
  | artRef i => right; rfl

/-! ## Claim theorems -/

/-- C10: every query operation — author articles / magazines / topic areas,
magazine articles / contributors / article titles / contributing authors,
and top publisher — is read-only: it leaves the Article registry, the
Magazine registry, and every Author, Magazine and Article unchanged. -/
theorem queries_read_only (s : State) (q : QueryOp) : (runQuery s q).2 = s := by
  cases q <;> rfl

/-- C3: `Author.articles` returns exactly the Article records of the
registry whose author is this Author: the result is a subsequence of the
registry (hence preserves insertion order), contains an article iff it is a
registry article of this author, and keeps each such article exactly as
often as the registry does (no additions, omissions or duplicates). -/
theorem author_articles_exact (s : State) (aid : Nat) :
    List.Sublist (Author.articles s aid) s.arts ∧
    (∀ a : Article, a ∈ Author.articles s aid ↔ a ∈ s.arts ∧ a.author = aid) ∧
    (∀ a : Article, (Author.articles s aid).count a =
      if a.author = aid then s.arts.count a else 0) := by
  refine ⟨List.filter_sublist _, fun a => ?_, fun a => ?_⟩
  · simp [Author.articles, List.mem_filter, and_comm]
  · by_cases h : a.author = aid
    · rw [if_pos h]
      unfold Author.articles
      exact List.count_filter (by simp [h])
    · rw [if_neg h, List.count_eq_zero]
      simp [Author.articles, List.mem_filter, h]

/-- C7: Magazine construction succeeds exactly when the name is a string of
length 2–16 and the category a non-empty string; in particular it fails for
a length-1 or length-17 name, a non-string category or an empty category. -/
theorem magazine_construction_valid (s : State) (nv cv : Value) :
    (Magazine.init s nv cv).1 = none ↔
      ∃ n c : String, nv = .str n ∧ cv = .str c ∧
        2 ≤ n.length ∧ n.length ≤ 16 ∧ 1 ≤ c.length := by
  cases nv with
  | str n =>
    by_cases h1 : 2 ≤ n.length ∧ n.length ≤ 16
    · cases cv with
      | str c =>
        by_cases h2 : c.length = 0
        · simp [Magazine.init, h1, h2]
        · simp [Magazine.init, h1, h2, Nat.one_le_iff_ne_zero]
      | int m => simp [Magazine.init, h1]
      | noneV => simp [Magazine.init, h1]
      | authorRef i => simp [Magazine.init, h1]
      | magRef i => simp [Magazine.init, h1]
      | artRef i => simp [Magazine.init, h1]
    · cases cv <;> (simp [Magazine.init, h1]; try omega)
  | int m => simp [Magazine.init]
  | noneV => simp [Magazine.init]
  | authorRef i => simp [Magazine.init]
  | magRef i => simp [Magazine.init]
  | artRef i => simp [Magazine.init]

/-- C8: Article construction succeeds exactly when the author is an Author
instance, the magazine a Magazine instance, and the title a string of
length 5–50; in particular it fails for a length-4 or length-51 title. -/
theorem article_construction_valid (s : State) (av mv tv : Value) :
    (Article.init s av mv tv).1 = none ↔
      (∃ i, av = .authorRef i) ∧ (∃ i, mv = .magRef i) ∧
        ∃ t : String, tv = .str t ∧ 5 ≤ t.length ∧ t.length ≤ 50 := by
  cases av with
  | authorRef ai =>
    cases mv with
    | magRef mi =>
      cases tv with
      | str t =>
        by_cases h1 : 5 ≤ t.length ∧ t.length ≤ 50
        · simp [Article.init, h1]
        · simp [Article.init, h1]
      | int m => simp [Article.init]
      | noneV => simp [Article.init]
      | authorRef i => simp [Article.init]
      | magRef i => simp [Article.init]
      | artRef i => simp [Article.init]
    | int m => simp [Article.init]
    | noneV => simp [Article.init]
    | str t => simp [Article.init]
    | authorRef i => simp [Article.init]
    | artRef i => simp [Article.init]
  | int m => simp [Article.init]
  | noneV => simp [Article.init]
  | str t => simp [Article.init]
  | magRef i => simp [Article.init]
  | artRef i => simp [Article.init]

/-- C4: a Magazine or Article constructor call that fails validation raises
and leaves the corresponding registry (indeed the whole state) exactly as it
was: no partially constructed object is registered. -/
theorem construction_failure_frame (s : State) (nv cv av mv tv : Value) :
    ((Magazine.init s nv cv).1 ≠ none → (Magazine.init s nv cv).2 = s) ∧
    ((Article.init s av mv tv).1 ≠ none → (Article.init s av mv tv).2 = s) := by
  constructor
  · intro h
    rcases mag_init_cases s nv cv with h1 | h1
    · exact absurd h1 h
    · exact h1
  · intro h
    rcases article_init_cases s av mv tv with h1 | h1
    · exact absurd h1 h
    · exact h1

/-- C4 witness: a length-1 magazine name and a length-4 article title both
fail and leave the state unchanged. -/
theorem construction_failure_frame_witness :
    ((Magazine.init State.empty (.str "X") (.str "Science")).1 ≠ none →
      (Magazine.init State.empty (.str "X") (.str "Science")).2 = State.empty) ∧
    ((Article.init State.empty (.authorRef 0) (.magRef 0) (.str "abcd")).1 ≠ none →
      (Article.init State.empty (.authorRef 0) (.magRef 0) (.str "abcd")).2 = State.empty) :=
  construction_failure_frame State.empty (.str "X") (.str "Science")
    (.authorRef 0) (.magRef 0) (.str "abcd")

theorem foldl_addUnique_mem {α : Type} [BEq α] [LawfulBEq α] (l acc : List α) (x : α) :
    x ∈ l.foldl addUnique acc ↔ x ∈ acc ∨ x ∈ l := by
  induction l generalizing acc with
  | nil => simp
  | cons y ys ih =>
    rw [List.foldl_cons, ih]
    unfold addUnique
    by_cases h : y ∈ acc
    · rw [if_pos (by simp [List.contains, List.elem_eq_mem, h])]
      constructor
      · rintro (hx | hx)
        · exact Or.inl hx
        · exact Or.inr (List.mem_cons_of_mem y hx)
      · rintro (hx | hx)
        · exact Or.inl hx
        · rcases List.mem_cons.mp hx with hx | hx
          · subst hx; exact Or.inl h
          · exact Or.inr hx
    · rw [if_neg (by simp [List.contains, List.elem_eq_mem, h])]
      simp only [List.mem_append, List.mem_singleton, List.mem_cons]
      tauto

/-- C5: the Magazine `name` setter applies exactly the strings of length
2–16 and the `category` setter exactly the non-empty strings; any other
assignment raises nothing and leaves the prior value unchanged. -/
theorem magazine_setters_gated (m : Magazine) (v : Value) (t c : String)
    (ht : 2 ≤ t.length ∧ t.length ≤ 16) (hc : 1 ≤ c.length) :
    Magazine.setName m (.str t) = { m with name := t } ∧
    Magazine.setCategory m (.str c) = { m with category := c } ∧
    ((∀ u : String, v = .str u → ¬ (2 ≤ u.length ∧ u.length ≤ 16)) →
      Magazine.setName m v = m) ∧
    ((∀ u : String, v = .str u → u.length = 0) → Magazine.setCategory m v = m) := by
  refine ⟨by simp [Magazine.setName, ht], ?_, ?_, ?_⟩
  · have hc' : 0 < c.length := hc
    simp [Magazine.setCategory, hc']
  · intro h
    cases v with
    | str u => simp [Magazine.setName, h u rfl]
    | int k => rfl
    | noneV => rfl
    | authorRef i => rfl
    | magRef i => rfl
    | artRef i => rfl
  · intro h
    cases v with
    | str u => simp [Magazine.setCategory, h u rfl]
    | int k => rfl
    | noneV => rfl
    | authorRef i => rfl
    | magRef i => rfl
    | artRef i => rfl

/-- C5 witness: a valid name "News" and category "Arts" are applied to
⟨"Tech", "Science"⟩, while the length-1 name "X" is silently ignored. -/
theorem magazine_setters_gated_witness :
    Magazine.setName ⟨"Tech", "Science"⟩ (.str "News") =
      { (⟨"Tech", "Science"⟩ : Magazine) with name := "News" } ∧
    Magazine.setCategory ⟨"Tech", "Science"⟩ (.str "Arts") =
      { (⟨"Tech", "Science"⟩ : Magazine) with category := "Arts" } ∧
    ((∀ u : String, Value.str "X" = .str u → ¬ (2 ≤ u.length ∧ u.length ≤ 16)) →
      Magazine.setName ⟨"Tech", "Science"⟩ (.str "X") = ⟨"Tech", "Science"⟩) ∧
    ((∀ u : String, Value.str "X" = .str u → u.length = 0) →
      Magazine.setCategory ⟨"Tech", "Science"⟩ (.str "X") = ⟨"Tech", "Science"⟩) :=
  magazine_setters_gated ⟨"Tech", "Science"⟩ (.str "X") "News" "Arts" (by decide) (by decide)

/-- C9: constructing an Author from a valid (non-empty) string stores that
exact string as the name; every later assignment to `Author.name` is a
no-op, and every assignment to `Article.title` is a no-op. -/
theorem author_name_immutable (s : State) (n : String) (hn : 1 ≤ n.length) :
    (Author.init s (.str n)).1 = none ∧
    (Author.init s (.str n)).2.authors = s.authors ++ [{ name := n }] ∧
    ((Author.init s (.str n)).2.authors.getD s.authors.length default).name = n ∧
    (∀ (a : Author) (v : Value), Author.setName a v = a) ∧
    (∀ (a : Article) (v : Value), Article.setTitle a v = a) := by
  have h0 : ¬ n.length = 0 := by omega
  refine ⟨by simp [Author.init, h0], by simp [Author.init, h0], ?_, fun a v => rfl,
    fun a v => rfl⟩
  simp [Author.init, h0, List.getD_eq_getElem?_getD, List.getElem?_concat_length]

/-- C9 witness: constructing "Ada" in the empty state stores the name
"Ada", and the setters are no-ops at concrete instances. -/
theorem author_name_immutable_witness :
    (Author.init State.empty (.str "Ada")).1 = none ∧
    (Author.init State.empty (.str "Ada")).2.authors =
      State.empty.authors ++ [{ name := "Ada" }] ∧
    ((Author.init State.empty (.str "Ada")).2.authors.getD
      State.empty.authors.length default).name = "Ada" ∧
    (∀ (a : Author) (v : Value), Author.setName a v = a) ∧
    (∀ (a : Article) (v : Value), Article.setTitle a v = a) :=
  author_name_immutable State.empty "Ada" (by decide)

/-- C2: `contributing_authors` is `none` when the magazine has no articles,
never returns an empty list, and an author is in the returned list exactly
when strictly more than 2 of this magazine's articles have that author. -/
theorem contributing_authors_threshold (s : State) (mid : Nat) :
    (Magazine.articles s mid = [] → Magazine.contributing_authors s mid = none) ∧
    Magazine.contributing_authors s mid ≠ some [] ∧
    (∀ aid : Nat, (∃ l, Magazine.contributing_authors s mid = some l ∧ aid ∈ l) ↔
      2 < (Magazine.articles s mid).countP (fun a => a.author == aid)) := by
  unfold Magazine.contributing_authors
  by_cases hE : (Magazine.articles s mid).isEmpty = true
  · have harts : Magazine.articles s mid = [] := List.isEmpty_iff.mp hE
    rw [if_pos hE]
    refine ⟨fun _ => rfl, by simp, fun aid => ?_⟩
    simp [harts]
  · rw [if_neg hE]
    have harts : Magazine.articles s mid ≠ [] := fun h => hE (by simp [h])
    have hmem : ∀ aid : Nat,
        2 < (Magazine.articles s mid).countP (fun a => a.author == aid) →
        aid ∈ ((Magazine.articles s mid).map (fun a => a.author)).foldl addUnique [] := by
      intro aid hc
      have hpos : 0 < (Magazine.articles s mid).countP (fun a => a.author == aid) := by omega
      rcases List.countP_pos_iff.mp hpos with ⟨a, ha, hpa⟩
      have : aid ∈ (Magazine.articles s mid).map (fun a => a.author) :=
        List.mem_map.mpr ⟨a, ha, by simpa using hpa⟩
      exact (foldl_addUnique_mem _ [] aid).mpr (Or.inr this)
    by_cases hR : (((Magazine.articles s mid).map (fun a => a.author)).foldl addUnique
        []).filter (fun aid =>
          (Magazine.articles s mid).countP (fun a => a.author == aid) > 2) = []
    · rw [if_pos (by simp [hR])]
      refine ⟨fun h => absurd h harts, by simp, fun aid => ?_⟩
      simp only [false_and, exists_const, reduceCtorEq, and_false, exists_false, false_iff,
        not_lt]
      by_contra hc
      push_neg at hc
      have hkey := hmem aid hc
      have : aid ∈ (((Magazine.articles s mid).map (fun a => a.author)).foldl addUnique
          []).filter (fun aid =>
            (Magazine.articles s mid).countP (fun a => a.author == aid) > 2) :=
        List.mem_filter.mpr ⟨hkey, by simpa using hc⟩
      rw [hR] at this
      exact absurd this (List.not_mem_nil aid)
    · rw [if_neg (by simpa using hR)]
      refine ⟨fun h => absurd h harts, by simpa using hR, fun aid => ?_⟩
      constructor
      · rintro ⟨l, hl, hal⟩
        have hl' := Option.some.inj hl
        subst hl'
        have := List.mem_filter.mp hal
        simpa using this.2
      · intro hc
        exact ⟨_, rfl, List.mem_filter.mpr ⟨hmem aid hc, by simpa using hc⟩⟩

/-- C2 witness: in a registry where author 0 wrote 3 articles and author 1
wrote 2 articles in magazine 0, only author 0 is a contributing author. -/
theorem contributing_authors_threshold_witness :
    (Magazine.articles
        ⟨[⟨"Ada"⟩, ⟨"Bob"⟩], [⟨"Tech", "Science"⟩],
          [⟨"title one!", 0, 0⟩, ⟨"title two!", 0, 0⟩, ⟨"title three", 0, 0⟩,
            ⟨"title four!", 1, 0⟩, ⟨"title five!", 1, 0⟩]⟩ 0 = [] →
      Magazine.contributing_authors
        ⟨[⟨"Ada"⟩, ⟨"Bob"⟩], [⟨"Tech", "Science"⟩],
          [⟨"title one!", 0, 0⟩, ⟨"title two!", 0, 0⟩, ⟨"title three", 0, 0⟩,
            ⟨"title four!", 1, 0⟩, ⟨"title five!", 1, 0⟩]⟩ 0 = none) ∧
    Magazine.contributing_authors
      ⟨[⟨"Ada"⟩, ⟨"Bob"⟩], [⟨"Tech", "Science"⟩],
        [⟨"title one!", 0, 0⟩, ⟨"title two!", 0, 0⟩, ⟨"title three", 0, 0⟩,
          ⟨"title four!", 1, 0⟩, ⟨"title five!", 1, 0⟩]⟩ 0 ≠ some [] ∧
    (∀ aid : Nat,
      (∃ l, Magazine.contributing_authors
        ⟨[⟨"Ada"⟩, ⟨"Bob"⟩], [⟨"Tech", "Science"⟩],
          [⟨"title one!", 0, 0⟩, ⟨"title two!", 0, 0⟩, ⟨"title three", 0, 0⟩,
            ⟨"title four!", 1, 0⟩, ⟨"title five!", 1, 0⟩]⟩ 0 = some l ∧ aid ∈ l) ↔
      2 < (Magazine.articles
        ⟨[⟨"Ada"⟩, ⟨"Bob"⟩], [⟨"Tech", "Science"⟩],
          [⟨"title one!", 0, 0⟩, ⟨"title two!", 0, 0⟩, ⟨"title three", 0, 0⟩,
            ⟨"title four!", 1, 0⟩, ⟨"title five!", 1, 0⟩]⟩ 0).countP
        (fun a => a.author == aid)) :=
  contributing_authors_threshold
    ⟨[⟨"Ada"⟩, ⟨"Bob"⟩], [⟨"Tech", "Science"⟩],
      [⟨"title one!", 0, 0⟩, ⟨"title two!", 0, 0⟩, ⟨"title three", 0, 0⟩,
        ⟨"title four!", 1, 0⟩, ⟨"title five!", 1, 0⟩]⟩ 0

theorem topLoop_append (s : State) (l : List Nat) (x : Nat) (best : Option Nat) (bc : Nat) :
    topLoop s (l ++ [x]) best bc =
      if Magazine.articleCount s x > (topLoop s l best bc).2 then
        (some x, Magazine.articleCount s x)
      else topLoop s l best bc := by
  induction l generalizing best bc with
  | nil => simp [topLoop]
  | cons y ys ih =>
    by_cases h : Magazine.articleCount s y > bc
    · simp only [List.cons_append, topLoop, if_pos h]
      exact ih _ _
    · simp only [List.cons_append, topLoop, if_neg h]
      exact ih _ _

theorem topLoop_range_spec (s : State) (n : Nat) :
    (∀ k, k < n → Magazine.articleCount s k ≤ (topLoop s (List.range n) none 0).2) ∧
    ((topLoop s (List.range n) none 0).1 = none →
      (topLoop s (List.range n) none 0).2 = 0) ∧
    (∀ m, (topLoop s (List.range n) none 0).1 = some m →
      m < n ∧ (topLoop s (List.range n) none 0).2 = Magazine.articleCount s m ∧
      0 < Magazine.articleCount s m ∧
      ∀ k, k < m → Magazine.articleCount s k < Magazine.articleCount s m) := by
  induction n with
  | zero =>
    refine ⟨fun k hk => absurd hk (Nat.not_lt_zero k), fun _ => rfl, fun m hm => ?_⟩
    exact Option.noConfusion hm
  | succ n ih =>
    obtain ⟨ih1, ih2, ih3⟩ := ih
    rw [List.range_succ, topLoop_append]
    by_cases h : Magazine.articleCount s n > (topLoop s (List.range n) none 0).2
    · rw [if_pos h]
      refine ⟨?_, ?_, ?_⟩
      · intro k hk
        rcases Nat.lt_succ_iff_lt_or_eq.mp hk with hk' | hk'
        · exact le_of_lt (lt_of_le_of_lt (ih1 k hk') h)
        · subst hk'; exact le_refl _
      · intro hnone; exact Option.noConfusion hnone
      · intro m hm
        have hmn : n = m := Option.some.inj hm
        subst hmn
        refine ⟨Nat.lt_succ_self n, rfl, lt_of_le_of_lt (Nat.zero_le _) h, ?_⟩
        intro k hk
        exact lt_of_le_of_lt (ih1 k hk) h
    · rw [if_neg h]
      push_neg at h
      refine ⟨?_, ih2, ?_⟩
      · intro k hk
        rcases Nat.lt_succ_iff_lt_or_eq.mp hk with hk' | hk'
        · exact ih1 k hk'
        · subst hk'; exact h
      · intro m hm
        obtain ⟨h1, h2, h3, h4⟩ := ih3 m hm
        exact ⟨Nat.lt_succ_of_lt h1, h2, h3, h4⟩

/-- C1: in any state with referential integrity, `top_publisher` returns
`none` when the Article registry is empty, and otherwise returns the
magazine with the most articles, the earliest registered one on ties
(every earlier magazine has a strictly smaller count). -/
theorem top_publisher_correct (s : State) (hwf : StateWF s) :
    (s.arts = [] → Magazine.top_publisher s = none) ∧
    (s.arts ≠ [] → ∃ m, Magazine.top_publisher s = some m ∧ m < s.mags.length ∧
      (∀ k, k < s.mags.length → Magazine.articleCount s k ≤ Magazine.articleCount s m) ∧
      (∀ k, k < m → Magazine.articleCount s k < Magazine.articleCount s m)) := by
  constructor
  · intro h; simp [Magazine.top_publisher, h]
  · intro h
    obtain ⟨spec1, spec2, spec3⟩ := topLoop_range_spec s s.mags.length
    obtain ⟨a0, rest, hcons⟩ := List.exists_cons_of_ne_nil h
    have ha0 : a0 ∈ s.arts := by rw [hcons]; exact List.mem_cons_self a0 rest
    obtain ⟨hau, hmag⟩ := hwf a0 ha0
    have hpos : 0 < Magazine.articleCount s a0.magazine := by
      unfold Magazine.articleCount
      exact List.length_pos_of_mem (List.mem_filter.mpr ⟨ha0, by simp⟩)
    have hle := spec1 a0.magazine hmag
    cases hr1 : (topLoop s (List.range s.mags.length) none 0).1 with
    | none =>
      have h0 := spec2 hr1
      omega
    | some m =>
      obtain ⟨hm1, hm2, hm3, hm4⟩ := spec3 m hr1
      refine ⟨m, ?_, hm1, ?_, hm4⟩
      · unfold Magazine.top_publisher
        rw [if_neg (by simp [hcons])]
        exact hr1
      · intro k hk
        have := spec1 k hk
        omega

/-- C1 witness: with one author, two magazines and one article published in
the second magazine, `top_publisher` picks the second magazine. -/
theorem top_publisher_correct_witness :
    ((⟨[⟨"Ada"⟩], [⟨"Tech", "Science"⟩, ⟨"Arts", "Culture"⟩],
        [⟨"Great title", 0, 1⟩]⟩ : State).arts = [] →
      Magazine.top_publisher
        ⟨[⟨"Ada"⟩], [⟨"Tech", "Science"⟩, ⟨"Arts", "Culture"⟩],
          [⟨"Great title", 0, 1⟩]⟩ = none) ∧
    ((⟨[⟨"Ada"⟩], [⟨"Tech", "Science"⟩, ⟨"Arts", "Culture"⟩],
        [⟨"Great title", 0, 1⟩]⟩ : State).arts ≠ [] →
      ∃ m, Magazine.top_publisher
          ⟨[⟨"Ada"⟩], [⟨"Tech", "Science"⟩, ⟨"Arts", "Culture"⟩],
            [⟨"Great title", 0, 1⟩]⟩ = some m ∧
        m < (⟨[⟨"Ada"⟩], [⟨"Tech", "Science"⟩, ⟨"Arts", "Culture"⟩],
            [⟨"Great title", 0, 1⟩]⟩ : State).mags.length ∧
        (∀ k, k < (⟨[⟨"Ada"⟩], [⟨"Tech", "Science"⟩, ⟨"Arts", "Culture"⟩],
            [⟨"Great title", 0, 1⟩]⟩ : State).mags.length →
          Magazine.articleCount
            ⟨[⟨"Ada"⟩], [⟨"Tech", "Science"⟩, ⟨"Arts", "Culture"⟩],
              [⟨"Great title", 0, 1⟩]⟩ k ≤
          Magazine.articleCount
            ⟨[⟨"Ada"⟩], [⟨"Tech", "Science"⟩, ⟨"Arts", "Culture"⟩],
              [⟨"Great title", 0, 1⟩]⟩ m) ∧
        (∀ k, k < m →
          Magazine.articleCount
            ⟨[⟨"Ada"⟩], [⟨"Tech", "Science"⟩, ⟨"Arts", "Culture"⟩],
              [⟨"Great title", 0, 1⟩]⟩ k <
          Magazine.articleCount
            ⟨[⟨"Ada"⟩], [⟨"Tech", "Science"⟩, ⟨"Arts", "Culture"⟩],
              [⟨"Great title", 0, 1⟩]⟩ m)) :=
  top_publisher_correct
    ⟨[⟨"Ada"⟩], [⟨"Tech", "Science"⟩, ⟨"Arts", "Culture"⟩], [⟨"Great title", 0, 1⟩]⟩
    (by decide)

theorem author_init_snd (s : State) (nv : Value) :
    (Author.init s nv).2 = s ∨
    ∃ n : String, (Author.init s nv).2 = { s with authors := s.authors ++ [{ name := n }] } := by
  cases nv with
  | str n =>
    by_cases h : n.length = 0
    · left; simp [Author.init, h]
    · right; exact ⟨n, by simp [Author.init, h]⟩
  | int m => left; rfl
  | noneV => left; rfl
  | authorRef i => left; rfl
  | magRef i => left; rfl
  | artRef i => left; rfl

theorem mag_init_snd (s : State) (nv cv : Value) :
    (Magazine.init s nv cv).2 = s ∨
    ∃ n c : String,
      (Magazine.init s nv cv).2 = { s with mags := s.mags ++ [{ name := n, category := c }] } := by
  cases nv with
  | str n =>
    by_cases h1 : 2 ≤ n.length ∧ n.length ≤ 16
    · cases cv with
      | str c =>
        by_cases h2 : c.length = 0
        · left; simp [Magazine.init, h1, h2]
        · right; exact ⟨n, c, by simp [Magazine.init, h1, h2]⟩
      | int m => left; simp [Magazine.init, h1]
      | noneV => left; simp [Magazine.init, h1]
      | authorRef i => left; simp [Magazine.init, h1]
      | magRef i => left; simp [Magazine.init, h1]
      | artRef i => left; simp [Magazine.init, h1]
    · left; cases cv <;> simp [Magazine.init, h1]
  | int m => left; rfl
  | noneV => left; rfl
  | authorRef i => left; rfl
  | magRef i => left; rfl
  | artRef i => left; rfl

theorem article_init_snd (s : State) (av mv tv : Value) :
    (Article.init s av mv tv).2 = s ∨
    ∃ (ai mi : Nat) (t : String), av = .authorRef ai ∧ mv = .magRef mi ∧
      (Article.init s av mv tv).2 =
        { s with arts := s.arts ++ [{ title := t, author := ai, magazine := mi }] } := by
  cases av with
  | authorRef ai =>
    cases mv with
    | magRef mi =>
      cases tv with
      | str t =>
        by_cases h1 : 5 ≤ t.length ∧ t.length ≤ 50
        · right; exact ⟨ai, mi, t, rfl, rfl, by simp [Article.init, h1]⟩
        · left; simp [Article.init, h1]
      | int m => left; rfl
      | noneV => left; rfl
      | authorRef i => left; rfl
      | magRef i => left; rfl
      | artRef i => left; rfl
    | int m => left; rfl
    | noneV => left; rfl
    | str t => left; rfl
    | authorRef i => left; rfl
    | artRef i => left; rfl
  | int m => left; rfl
  | noneV => left; rfl
  | str t => left; rfl
  | magRef i => left; rfl
  | artRef i => left; rfl

theorem stateWF_authors_grow {s : State} (hwf : StateWF s) (l : List Author) :
    StateWF { s with authors := s.authors ++ l } := by
  intro b hb
  obtain ⟨h1, h2⟩ := hwf b hb
  exact ⟨lt_of_lt_of_le h1 (by simp), h2⟩

theorem stateWF_mags_grow {s : State} (hwf : StateWF s) (l : List Magazine) :
    StateWF { s with mags := s.mags ++ l } := by
  intro b hb
  obtain ⟨h1, h2⟩ := hwf b hb
  exact ⟨h1, lt_of_lt_of_le h2 (by simp)⟩

theorem stateWF_set_art {s : State} (hwf : StateWF s) {i : Nat} {a : Article}
    (ha : a.author < s.authors.length) (hm : a.magazine < s.mags.length) :
    StateWF { s with arts := s.arts.set i a } := by
  intro b hb
  rcases List.mem_or_eq_of_mem_set hb with h | h
  · exact hwf b h
  · subst h; exact ⟨ha, hm⟩

theorem getD_mem_of_lt {α : Type} [Inhabited α] {l : List α} {i : Nat} (h : i < l.length) :
    l.getD i default ∈ l := by
  rw [List.getD_eq_getElem?_getD, List.getElem?_eq_getElem h]
  exact List.getElem_mem h

theorem stepWF {s : State} {op : Op} (hwf : StateWF s) (hop : opWF s op = true) :
    StateWF (step s op) := by
  cases op with
  | newAuthor nv =>
    show StateWF (Author.init s nv).2
    rcases author_init_snd s nv with h | ⟨n, h⟩
    · rw [h]; exact hwf
    · rw [h]; exact stateWF_authors_grow hwf _
  | newMagazine nv cv =>
    show StateWF (Magazine.init s nv cv).2
    rcases mag_init_snd s nv cv with h | ⟨n, c, h⟩
    · rw [h]; exact hwf
    · rw [h]; exact stateWF_mags_grow hwf _
  | newArticle av mv tv =>
    show StateWF (Article.init s av mv tv).2
    rcases article_init_snd s av mv tv with h | ⟨ai, mi, t, hav, hmv, h⟩
    · rw [h]; exact hwf
    · rw [h]
      subst hav; subst hmv
      simp only [opWF, valueWF, Bool.and_eq_true, decide_eq_true_eq] at hop
      intro b hb
      rcases List.mem_append.mp hb with hb | hb
      · exact hwf b hb
      · rcases List.mem_singleton.mp hb with rfl
        exact ⟨hop.1.1, hop.1.2⟩
  | setAuthorName i v =>
    intro b hb
    obtain ⟨h1, h2⟩ := hwf b hb
    exact ⟨by simpa [step] using h1, h2⟩
  | setMagazineName i v =>
    intro b hb
    obtain ⟨h1, h2⟩ := hwf b hb
    exact ⟨h1, by simpa [step] using h2⟩
  | setMagazineCategory i v =>
    intro b hb
    obtain ⟨h1, h2⟩ := hwf b hb
    exact ⟨h1, by simpa [step] using h2⟩
  | setArticleTitle i v =>
    simp only [opWF, Bool.and_eq_true, decide_eq_true_eq] at hop
    have hold := hwf _ (getD_mem_of_lt (l := s.arts) hop.1)
    exact stateWF_set_art hwf hold.1 hold.2
  | setArticleAuthor i v =>
    simp only [opWF, Bool.and_eq_true, decide_eq_true_eq] at hop
    have hold := hwf _ (getD_mem_of_lt (l := s.arts) hop.1)
    cases v with
    | authorRef k =>
      have hk : k < s.authors.length := by simpa [valueWF] using hop.2
      exact stateWF_set_art hwf hk hold.2
    | str t => exact stateWF_set_art hwf hold.1 hold.2
    | int m => exact stateWF_set_art hwf hold.1 hold.2
    | noneV => exact stateWF_set_art hwf hold.1 hold.2
    | magRef k => exact stateWF_set_art hwf hold.1 hold.2
    | artRef k => exact stateWF_set_art hwf hold.1 hold.2
  | setArticleMagazine i v =>
    simp only [opWF, Bool.and_eq_true, decide_eq_true_eq] at hop
    have hold := hwf _ (getD_mem_of_lt (l := s.arts) hop.1)
    cases v with
    | magRef k =>
      have hk : k < s.mags.length := by simpa [valueWF] using hop.2
      exact stateWF_set_art hwf hold.1 hk
    | str t => exact stateWF_set_art hwf hold.1 hold.2
    | int m => exact stateWF_set_art hwf hold.1 hold.2
    | noneV => exact stateWF_set_art hwf hold.1 hold.2
    | authorRef k => exact stateWF_set_art hwf hold.1 hold.2
    | artRef k => exact stateWF_set_art hwf hold.1 hold.2

theorem reachable_wf (s : State) (h : Reachable s) : StateWF s := by
  induction h with
  | empty => intro b hb; exact absurd hb (List.not_mem_nil b)
  | next _ hop ih => exact stepWF ih hop

/-- C6: in every reachable state every Article references one existing
Author and one existing Magazine (never null); the author setter replaces
the reference exactly when given an Author instance and the magazine setter
exactly when given a Magazine instance, any other assignment being ignored. -/
theorem article_refs_always_valid :
    (∀ s : State, Reachable s → StateWF s) ∧
    (∀ (a : Article) (i : Nat),
      (Article.setAuthor a (.authorRef i)).author = i ∧
      (Article.setAuthor a (.authorRef i)).magazine = a.magazine ∧
      (Article.setMagazine a (.magRef i)).magazine = i ∧
      (Article.setMagazine a (.magRef i)).author = a.author) ∧
    (∀ (a : Article) (v : Value), (∀ i, v ≠ .authorRef i) → Article.setAuthor a v = a) ∧
    (∀ (a : Article) (v : Value), (∀ i, v ≠ .magRef i) → Article.setMagazine a v = a) := by
  refine ⟨reachable_wf, fun a i => ⟨rfl, rfl, rfl, rfl⟩, ?_, ?_⟩
  · intro a v h
    cases v with
    | authorRef i => exact absurd rfl (h i)
    | str t => rfl
    | int k => rfl
    | noneV => rfl
    | magRef i => rfl
    | artRef i => rfl
  · intro a v h
    cases v with
    | magRef i => exact absurd rfl (h i)
    | str t => rfl
    | int k => rfl
    | noneV => rfl
    | authorRef i => rfl
    | artRef i => rfl

/-- C6 witness: the state reached by constructing an author, a magazine and
an article satisfies referential integrity, and assigning an int to an
article's author is ignored. -/
theorem article_refs_always_valid_witness :
    StateWF (step (step (step State.empty (.newAuthor (.str "Ada")))
      (.newMagazine (.str "Tech") (.str "Science")))
      (.newArticle (.authorRef 0) (.magRef 0) (.str "Great title"))) ∧
    Article.setAuthor ⟨"Great title", 0, 0⟩ (.int 3) = ⟨"Great title", 0, 0⟩ :=
  ⟨article_refs_always_valid.1 _
    (Reachable.next (Reachable.next (Reachable.next Reachable.empty (by decide)) (by decide))
      (by decide)),
   article_refs_always_valid.2.2.1 ⟨"Great title", 0, 0⟩ (.int 3)
     (fun i h => Value.noConfusion h)⟩

/-- C3 witness: the exactness of `Author.articles` at a registry with two
authors sharing a magazine. -/
theorem author_articles_exact_witness :
    List.Sublist
      (Author.articles
        ⟨[⟨"Ada"⟩, ⟨"Bob"⟩], [⟨"Tech", "Science"⟩],
          [⟨"title one!", 0, 0⟩, ⟨"title two!", 1, 0⟩]⟩ 0)
      (⟨[⟨"Ada"⟩, ⟨"Bob"⟩], [⟨"Tech", "Science"⟩],
          [⟨"title one!", 0, 0⟩, ⟨"title two!", 1, 0⟩]⟩ : State).arts ∧
    (∀ a : Article,
      a ∈ Author.articles
        ⟨[⟨"Ada"⟩, ⟨"Bob"⟩], [⟨"Tech", "Science"⟩],
          [⟨"title one!", 0, 0⟩, ⟨"title two!", 1, 0⟩]⟩ 0 ↔
      a ∈ (⟨[⟨"Ada"⟩, ⟨"Bob"⟩], [⟨"Tech", "Science"⟩],
          [⟨"title one!", 0, 0⟩, ⟨"title two!", 1, 0⟩]⟩ : State).arts ∧ a.author = 0) ∧
    (∀ a : Article,
      (Author.articles
        ⟨[⟨"Ada"⟩, ⟨"Bob"⟩], [⟨"Tech", "Science"⟩],
          [⟨"title one!", 0, 0⟩, ⟨"title two!", 1, 0⟩]⟩ 0).count a =
      if a.author = 0 then
        (⟨[⟨"Ada"⟩, ⟨"Bob"⟩], [⟨"Tech", "Science"⟩],
            [⟨"title one!", 0, 0⟩, ⟨"title two!", 1, 0⟩]⟩ : State).arts.count a
      else 0) :=
  author_articles_exact
    ⟨[⟨"Ada"⟩, ⟨"Bob"⟩], [⟨"Tech", "Science"⟩],
      [⟨"title one!", 0, 0⟩, ⟨"title two!", 1, 0⟩]⟩ 0

/-- C7 witness: the success criterion instantiated at name "Tech" and
category "Science" in the empty state. -/
theorem magazine_construction_valid_witness :
    (Magazine.init State.empty (.str "Tech") (.str "Science")).1 = none ↔
      ∃ n c : String, Value.str "Tech" = .str n ∧ Value.str "Science" = .str c ∧
        2 ≤ n.length ∧ n.length ≤ 16 ∧ 1 ≤ c.length :=
  magazine_construction_valid State.empty (.str "Tech") (.str "Science")

/-- C8 witness: the success criterion instantiated at a valid author
reference, magazine reference and title. -/
theorem article_construction_valid_witness :
    (Article.init State.empty (.authorRef 0) (.magRef 0) (.str "Great title")).1 = none ↔
      (∃ i, Value.authorRef 0 = .authorRef i) ∧ (∃ i, Value.magRef 0 = .magRef i) ∧
        ∃ t : String, Value.str "Great title" = .str t ∧ 5 ≤ t.length ∧ t.length ≤ 50 :=
  article_construction_valid State.empty (.authorRef 0) (.magRef 0) (.str "Great title")

end ManyToMany
